import Mathlib

/-
  Verification development for the go-mwclient MediaWiki API client.

  The Go source is embedded shallowly: pure helpers become Lean functions,
  the client's stateful calls become explicit state passing, and the HTTP
  transport is modelled as a stream of outcomes consumed one per attempt.
  All definitions are executable; machine integers are modelled as Int/Nat
  (the parsed values involved are far below 64-bit bounds).
-/

namespace Mwclient

/-! ### Go standard-library string helpers

`strJoin` models `strings.Join`, `splitChar`/`strSplit` model
`strings.Split` with a one-character separator, and `containsChar` models
`strings.Contains` with a one-character needle. -/

/-- Model of Go `strings.Join(elems, sep)`. -/
def strJoin : List String → String → String
  | [], _ => ""
  | [s], _ => s
  | s :: rest, sep => s ++ sep ++ strJoin rest sep

/-- Split a character list at every occurrence of `sep`; the result is
never empty (splitting the empty list yields one empty piece), matching
Go `strings.Split`. -/
def splitChar : List Char → Char → List (List Char)
  | [], _ => [[]]
  | c :: cs, sep =>
    match splitChar cs sep with
    | [] => [[c]]
    | r :: rs => if c = sep then [] :: r :: rs else (c :: r) :: rs

/-- Model of Go `strings.Split(s, sep)` for a one-character separator. -/
def strSplit (s : String) (sep : Char) : List String :=
  (splitChar s.data sep).map String.mk

/-- Model of Go `strings.Contains(s, c)` for a one-character needle. -/
def containsChar (s : String) (c : Char) : Bool :=
  s.data.any fun d => d == c

/-! ### sort.Strings

Go's `sort.Strings` sorts byte-wise lexicographically; for valid UTF-8
this coincides with codepoint order, computed here on the character
lists. Modelled as insertion sort. -/

/-- Lexicographic strict order on character lists, by codepoint. -/
def charListLt : List Char → List Char → Bool
  | _, [] => false
  | [], _ :: _ => true
  | a :: as, b :: bs =>
    if a.toNat < b.toNat then true
    else if b.toNat < a.toNat then false
    else charListLt as bs

/-- Go `<` on strings (byte-wise, equivalently codepoint-wise). -/
def strLtB (a b : String) : Bool := charListLt a.data b.data

/-- Insert a string into an already sorted list. -/
def insertStr (s : String) : List String → List String
  | [] => [s]
  | t :: ts => if strLtB s t then s :: t :: ts else t :: insertStr s ts

/-- Model of Go `sort.Strings`. -/
def sortStrings : List String → List String
  | [] => []
  | s :: ss => insertStr s (sortStrings ss)

/-! ### url.QueryEscape

Go escapes each UTF-8 byte that is not an unreserved character
(`A-Z a-z 0-9 - _ . ~`); space becomes `+`, everything else `%XX` with
uppercase hex digits. -/

/-- UTF-8 encoding of a Unicode codepoint, as byte values. -/
def utf8Bytes (c : Nat) : List Nat :=
  if c < 0x80 then [c]
  else if c < 0x800 then [0xC0 + c / 0x40, 0x80 + c % 0x40]
  else if c < 0x10000 then
    [0xE0 + c / 0x1000, 0x80 + (c / 0x40) % 0x40, 0x80 + c % 0x40]
  else
    [0xF0 + c / 0x40000, 0x80 + (c / 0x1000) % 0x40,
     0x80 + (c / 0x40) % 0x40, 0x80 + c % 0x40]

/-- Uppercase hexadecimal digit for a value below 16. -/
def hexDigitUpper (n : Nat) : Char :=
  if n < 10 then Char.ofNat (48 + n) else Char.ofNat (55 + n)

/-- Is this byte left unescaped by Go's `url.QueryEscape`? -/
def isUnreservedByte (b : Nat) : Bool :=
  (65 ≤ b && b ≤ 90) || (97 ≤ b && b ≤ 122) || (48 ≤ b && b ≤ 57) ||
    b = 45 || b = 95 || b = 46 || b = 126

/-- Escape a single byte as `url.QueryEscape` does. -/
def escByte (b : Nat) : String :=
  if isUnreservedByte b then String.singleton (Char.ofNat b)
  else if b = 32 then "+"
  else String.mk ['%', hexDigitUpper (b / 16), hexDigitUpper (b % 16)]

/-- Model of Go `url.QueryEscape`. -/
def queryEscape (s : String) : String :=
  String.join ((s.data.flatMap fun ch => utf8Bytes ch.toNat).map escByte)

/-! ### strconv.Atoi

Idealized model of `strconv.Atoi`: optional sign followed by at least one
decimal digit, parsed to an unbounded `Int` (all values appearing in this
development are far below the 64-bit range, where `Atoi` neither clamps
nor errors). Any other input is a syntax error. -/

/-- Accumulate decimal digits; `none` on any non-digit. -/
def parseDigitsAux : List Char → Nat → Option Nat
  | [], acc => some acc
  | c :: cs, acc =>
    if '0' ≤ c ∧ c ≤ '9' then parseDigitsAux cs (acc * 10 + (c.toNat - 48))
    else none

/-- Model of Go `strconv.Atoi` (within 64-bit range). -/
def atoi (s : String) : Except String Int :=
  match s.data with
  | [] => .error "invalid syntax"
  | '-' :: rest =>
    match rest with
    | [] => .error "invalid syntax"
    | _ =>
      match parseDigitsAux rest 0 with
      | some n => .ok (-(n : Int))
      | none => .error "invalid syntax"
  | '+' :: rest =>
    match rest with
    | [] => .error "invalid syntax"
    | _ =>
      match parseDigitsAux rest 0 with
      | some n => .ok (n : Int)
      | none => .error "invalid syntax"
  | cs =>
    match parseDigitsAux cs 0 with
    | some n => .ok (n : Int)
    | none => .error "invalid syntax"

end Mwclient

namespace Params

open Mwclient

/-! ### package params (src/unnamed/part_009)

`Values` is Go's `map[string]string`, modelled as an association list in
which every mutation rewrites the first matching key in place (Go maps
have unique keys, so the representations coincide; `Encode` sorts keys,
so list position is unobservable). -/

/-- `params.Values`: a map from string keys to string values. -/
def Values := List (String × String)

/-- Go map lookup `v[key]` with its `ok` flag (`current, ok := v[key]`). -/
def Values.lookup? : Values → String → Option String
  | [], _ => none
  | (k₂, val) :: rest, k => if k₂ = k then some val else Values.lookup? rest k

/-- `Values.Get`: empty string when the key is absent (also the behavior
of a plain Go map index `v[k]` for a missing key). -/
def Values.get (v : Values) (k : String) : String :=
  match v.lookup? k with
  | some s => s
  | none => ""

/-- Go map assignment `v[key] = value` (used by `Values.Set` and by the
assignments inside `Add`/`AddRange`): replace the existing entry, else
insert. -/
def Values.set : Values → String → String → Values
  | [], k, val => [(k, val)]
  | (k₂, v₂) :: rest, k, val =>
    if k₂ = k then (k, val) :: rest else (k₂, v₂) :: Values.set rest k val

/-- `Values.Add`: append to an existing value joined by a pipe, else set. -/
def Values.add (v : Values) (k val : String) : Values :=
  match v.lookup? k with
  | some current => v.set k (strJoin [current, val] "|")
  | none => v.set k val

/-- `Values.AddRange`: join the existing value (if any) with all new
values using pipes. -/
def Values.addRange (v : Values) (k : String) (vals : List String) : Values :=
  match v.lookup? k with
  | some current => v.set k (strJoin (current :: vals) "|")
  | none => v.set k (strJoin vals "|")

/-- One step of `Values.Encode`'s loop over the sorted keys: the state is
the buffer plus the `token` flag; the `token` key is skipped and flagged,
every other key appends `urlescape(k)=urlescape(v[k])`, preceded by `&`
when the buffer is nonempty. -/
def encodeStep (v : Values) (acc : String × Bool) (k : String) : String × Bool :=
  if k = "token" then (acc.1, true)
  else
    let pre := queryEscape k ++ "="
    let buf := if acc.1 = "" then acc.1 else acc.1 ++ "&"
    (buf ++ pre ++ queryEscape (v.get k), acc.2)

/-- `Values.Encode` (src/unnamed/part_009, lines 82-109): iterate the
sorted keys, skipping `token`, then append `"&token=" + escape(v[token])`
when the `token` flag was set. A nil/empty map encodes to the empty
string. -/
def Values.encode (v : Values) : String :=
  let keys := sortStrings (v.map Prod.fst)
  let st := keys.foldl (encodeStep v) ("", false)
  if st.2 then st.1 ++ "&token=" ++ queryEscape (v.get "token") else st.1

/-- The entry emitted for key `k` of map `v`. -/
def entryOf (v : Values) (k : String) : String :=
  queryEscape k ++ "=" ++ queryEscape (v.get k)

/-- Encoding as claim C1 words it: all entries, `token` moved last, joined
by `&` (spec-side definition, for comparison with `Values.encode`). -/
def encodeSpecClaim (v : Values) : String :=
  let keys := sortStrings (v.map Prod.fst)
  let entries := (keys.filter fun k => k ≠ "token").map (entryOf v)
  let all := if keys.contains "token"
    then entries ++ [queryEscape "token" ++ "=" ++ queryEscape (v.get "token")]
    else entries
  strJoin all "&"

/-- Amended spec-side encoding: non-`token` entries joined by `&`; when
`token` is present, the literal `"&token=" ++ escape(value)` is appended
afterwards (hence a leading `&` when `token` is the only key). -/
def encodeSpecAmended (v : Values) : String :=
  let keys := sortStrings (v.map Prod.fst)
  let entries := (keys.filter fun k => k ≠ "token").map (entryOf v)
  strJoin entries "&" ++
    (if keys.contains "token" then "&token=" ++ queryEscape (v.get "token") else "")

/-- Join a list of strings where every element is preceded by `&`
(the shape `Encode`'s buffer takes once it is nonempty). -/
def suffixJoin : List String → String
  | [] => ""
  | e :: es => "&" ++ e ++ suffixJoin es

end Params

namespace Mwclient

open Params

/-! ### Client.call (src/core.go, lines 143-264)

The transport is modelled as a stream `tr : Nat → TransportOut` giving
the outcome of the attempt with that index. Each attempt first applies
the parameter mutations of the `callf` closure (`prepare`), then consumes
one transport outcome. `Maxlag.sleep` is a no-op here (the tests inject
`noSleep`; no claim concerns wall-clock time). The result carries the
final parameter map, which in Go is the caller's map mutated in place,
and the number of transport attempts made. -/

/-- The Client `Assert` field (`AssertNone`/`AssertUser`/`AssertBot`). -/
inductive AssertT
  | assertNone
  | assertUser
  | assertBot
deriving DecidableEq

/-- The outcome of one transport round trip, as classified by `callf`:
a body, the maxlag signal (`maxLagError` with message and wait seconds),
or a hard error. -/
inductive TransportOut
  | ok (body : String)
  | maxLag (msg : String) (wait : Int)
  | hard (e : String)
deriving DecidableEq

/-- The result of `Client.call`: a transport outcome passed through, or
`ErrAPIBusy` after exhausting the retries. -/
inductive CallRes
  | ok (body : String)
  | maxLag (msg : String) (wait : Int)
  | hard (e : String)
  | apiBusy
deriving DecidableEq

/-- Pass a transport outcome through unmodified (the `return reqResp, err`
and `return callf()` paths). -/
def liftOut : TransportOut → CallRes
  | .ok body => .ok body
  | .maxLag m w => .maxLag m w
  | .hard e => .hard e

/-- Is the outcome the maxlag signal (`err.(maxLagError)` succeeds)? -/
def isLag : TransportOut → Bool
  | .maxLag _ _ => true
  | _ => false

/-- src/core.go, lines 146-152: force `format=json`, then set `utf8=`
for `formatversion=1` or default `formatversion=2` when unset. -/
def prepFormat (p : Values) : Values :=
  let p := p.set "format" "json"
  if p.get "formatversion" = "1" then p.set "utf8" ""
  else if p.get "formatversion" = "" then p.set "formatversion" "2"
  else p

/-- src/core.go, lines 154-159: inject the configured `maxlag` when
maxlag is on and the caller left it unset. -/
def prepMaxlag (maxlagOn : Bool) (timeout : String) (p : Values) : Values :=
  if maxlagOn then (if p.get "maxlag" = "" then p.set "maxlag" timeout else p)
  else p

/-- src/core.go, lines 161-168: set the `assert` parameter per the
client's Assert field. -/
def prepAssert (assert : AssertT) (p : Values) : Values :=
  match assert with
  | .assertNone => p
  | .assertUser => p.set "assert" "user"
  | .assertBot => p.set "assert" "bot"

/-- The parameter mutations at the top of the `callf` closure
(src/core.go, lines 145-168), in source order. -/
def prepare (maxlagOn : Bool) (timeout : String) (assert : AssertT) (p : Values) :
    Values :=
  prepAssert assert (prepMaxlag maxlagOn timeout (prepFormat p))

/-- The maxlag retry loop of `Client.call` (src/core.go, lines 242-260):
`t` is the number of attempts already made (`tries`), the `Nat` argument
is the number of loop iterations left; a maxlag outcome continues the
loop (after a sleep, elided), anything else returns immediately, and an
exhausted loop returns `ErrAPIBusy`. -/
def retryLoop (timeout : String) (assert : AssertT) (tr : Nat → TransportOut)
    (t : Nat) : Nat → Values → CallRes × Nat × Values
  | 0, p => (.apiBusy, t, p)
  | rem + 1, p =>
    let p₂ := prepare true timeout assert p
    match tr t with
    | .maxLag _ _ => retryLoop timeout assert tr (t + 1) rem p₂
    | out => (liftOut out, t + 1, p₂)

/-- `Client.call`: with maxlag on, run the retry loop for
`Maxlag.Retries` iterations; with maxlag off, make a single attempt and
pass the outcome through unmodified. Returns the result, the number of
transport attempts made, and the caller's parameter map after the call
(mutated in place in Go). -/
def call (maxlagOn : Bool) (timeout : String) (assert : AssertT) (retries : Nat)
    (tr : Nat → TransportOut) (p : Values) : CallRes × Nat × Values :=
  if maxlagOn then retryLoop timeout assert tr 0 retries p
  else
    let p₂ := prepare false timeout assert p
    (liftOut (tr 0), 1, p₂)

/-! ### Maxlag response classification (src/core.go, lines 220-239 and
src/unnamed/part_006, lines 169-178)

After a round trip, a nonempty `X-Database-Lag` header marks the
response as the maxlag signal. Current core.go parses `Retry-After` with
`strconv.Atoi` and returns the parse error itself when parsing fails;
the historical variant (part_006) discards the parse error, so the wait
defaults to 0. -/

/-- Response classification of current `core.go`: on a database-lag
header, a failed `Atoi` of `Retry-After` aborts the call with that
error (`return nil, err`); otherwise the maxlag signal carries the raw
body and the parsed wait. -/
def classifyLag (dbLagHeader retryAfterHeader body : String) :
    Except String TransportOut :=
  if dbLagHeader ≠ "" then
    match atoi retryAfterHeader with
    | .error e => .error e
    | .ok n => .ok (.maxLag body n)
  else .ok (.ok body)

/-- `strconv.Atoi` with the error discarded (`retryAfter, _ :=`),
yielding 0 on a parse failure. -/
def atoiOr0 (s : String) : Int :=
  match atoi s with
  | .ok n => n
  | .error _ => 0

/-- Response classification of the historical variant
(src/unnamed/part_006): the `Atoi` error is discarded, so an unparseable
`Retry-After` yields the maxlag signal with wait 0. -/
def classifyLagV1 (dbLagHeader retryAfterHeader body : String) :
    Except String TransportOut :=
  if dbLagHeader ≠ "" then .ok (.maxLag body (atoiOr0 retryAfterHeader))
  else .ok (.ok body)

/-! ### JSON values

A decoded JSON tree, shared by the models of the `simplejson` and `jason`
accessors. JSON objects keep their fields as an association list (Go map
iteration order is not deterministic; every claim proved here is
insensitive to field order or fixes it concretely). -/

/-- A decoded JSON value. -/
inductive Jv
  | null
  | bool (b : Bool)
  | num (n : Int)
  | str (s : String)
  | arr (xs : List Jv)
  | obj (fields : List (String × Jv))

/-- Look a key up in a JSON object's field list. -/
def objGet? : List (String × Jv) → String → Option Jv
  | [], _ => none
  | (k₂, v) :: rest, k => if k₂ = k then some v else objGet? rest k

/-- `simplejson` `CheckGet`: the value under a key, provided the receiver
is an object (otherwise the lookup reports absence). -/
def jvCheckGet : Jv → String → Option Jv
  | .obj fs, k => objGet? fs k
  | _, _ => none

/-- `simplejson` `MustString` with no default: the string value, or the
zero value `""` when the receiver is not a JSON string. -/
def mustString : Jv → String
  | .str s => s
  | _ => ""

/-! ### extractAPIErrors (src/errors.go, lines 207-244)

The later simplejson variant: an `error` object short-circuits (warnings
are not inspected); its `code` and `info` members are fetched with
`CheckGet` (presence only) and read with `MustString`. Otherwise a
`warnings` object is walked module by module; each module's `*` string is
split on newlines into one warning per line. The Go code reads each
module value with unchecked type assertions (`v.(map[string]interface{})
["*"].(string)`), which panic on other shapes; that is modelled by the
`panicked` outcome. -/

/-- The result of `extractAPIErrors`: `none` models the nil error. -/
inductive ExtractRes
  | apiErr (code info : String)
  | warnings (ws : List (String × String))
  | brokenErr
  | brokenWarn
  | panicked
deriving DecidableEq

/-- The module's `*` info string, when the module value has the shape the
type assertions require. -/
def starInfo? : Jv → Option String
  | .obj fs =>
    match objGet? fs "*" with
    | some (.str s) => some s
    | _ => none
  | _ => none

/-- Walk the `warnings` map: split an info string containing a newline
into one warning per line, each tagged with its module; `none` models the
panic on a module value of the wrong shape. -/
def buildWarnings : List (String × Jv) → Option (List (String × String))
  | [] => some []
  | (module, v) :: rest =>
    match starInfo? v with
    | none => none
    | some info =>
      let ws := if containsChar info '\n'
        then (strSplit info '\n').map fun w => (module, w)
        else [(module, info)]
      match buildWarnings rest with
      | none => none
      | some tail => some (ws ++ tail)

/-- `extractAPIErrors` (src/errors.go, lines 207-244). -/
def extractAPIErrors (resp : List (String × Jv)) : Option ExtractRes :=
  match objGet? resp "error" with
  | some e =>
    match jvCheckGet e "code", jvCheckGet e "info" with
    | some c, some i => some (.apiErr (mustString c) (mustString i))
    | _, _ => some .brokenErr
  | none =>
    match objGet? resp "warnings" with
    | some w =>
      match w with
      | .obj wfields =>
        match buildWarnings wfields with
        | some ws => some (.warnings ws)
        | none => some .panicked
      | _ => some .brokenWarn
    | none => none

/-! ### Client.Edit response handling (src/edit.go, lines 499-544)

The current variant, after `Post` succeeded: `GetString("edit","result")`
must yield a string; a non-`"Success"` result looks for an `edit.captcha`
object, marshals it and unmarshals into the four string fields of
`CaptchaError` (a non-string, non-null field makes `json.Unmarshal`
fail, producing the message-creation error); a `"Success"` result checks
`GetBoolean("edit","nochange")`. -/

/-- The `CaptchaError` struct (fields `type`, `mime`, `id`, `url`). -/
structure CaptchaError where
  type : String
  mime : String
  id : String
  url : String
deriving DecidableEq

/-- The outcome of `Client.Edit` after a successful post: `success`
models the nil return, the rest the distinct error returns. -/
inductive EditOutcome
  | success
  | noChange
  | captchaErr (c : CaptchaError)
  | unrecognized
  | createMsgErr
  | badResult
deriving DecidableEq

/-- `json.Unmarshal` of one string struct field: absent or JSON-null
leaves the zero value, a string is taken, any other type fails. -/
def strField? (fs : List (String × Jv)) (k : String) : Option String :=
  match objGet? fs k with
  | none => some ""
  | some (.str s) => some s
  | some .null => some ""
  | some _ => none

/-- `json.Unmarshal` of the captcha object into `CaptchaError`. -/
def captchaOf (fs : List (String × Jv)) : Option CaptchaError :=
  match strField? fs "type", strField? fs "mime", strField? fs "id",
      strField? fs "url" with
  | some t, some m, some i, some u => some ⟨t, m, i, u⟩
  | _, _, _, _ => none

/-- `Client.Edit`'s handling of a decoded response
(src/edit.go, lines 516-543). -/
def handleEditResponse (resp : List (String × Jv)) : EditOutcome :=
  match objGet? resp "edit" with
  | some (.obj editFs) =>
    match objGet? editFs "result" with
    | some (.str res) =>
      if res ≠ "Success" then
        match objGet? editFs "captcha" with
        | some (.obj capFs) =>
          match captchaOf capFs with
          | some c => .captchaErr c
          | none => .createMsgErr
        | _ => .unrecognized
      else
        match objGet? editFs "nochange" with
        | some (.bool true) => .noChange
        | _ => .success
    | _ => .badResult
  | _ => .badResult

/-! ### Query continuation cursor (src/query.go)

`Client.Get` is modelled at its boundary: a stream `net : Nat → (Option
Jv × Option String)` gives, for the n-th network request, the pair that
`Get` returns (decoded response and error; a hard transport or parse
failure is `(none, some e)`, an API error is `(some js, some e)`, plain
success `(some js, none)`). The cursor state carries the evolving
parameter map, the last response, the error, and the number of network
requests made so far (which doubles as the index into the stream). -/

/-- The state of a `Query` (src/query.go, lines 42-47), plus the count of
network requests made through it. -/
structure QueryState where
  params : Values
  resp : Option Jv
  err : Option String
  calls : Nat

/-- The value at a path of object keys. -/
def jvAtPath? : Jv → List String → Option Jv
  | j, [] => some j
  | .obj fs, k :: rest =>
    match objGet? fs k with
    | some v => jvAtPath? v rest
    | none => none
  | _, _ :: _ => none

/-- `jason` `GetObject(keys...)`: the object at the path, or an error
(modelled as `none`) when absent or not an object. -/
def jGetObject? (j : Jv) (path : List String) : Option (List (String × Jv)) :=
  match jvAtPath? j path with
  | some (.obj fs) => some fs
  | _ => none

/-- `jason` `GetString(keys...)`: the string at the path, or an error
(modelled as `none`) when absent or not a string. -/
def jGetString (j : Jv) (path : List String) : Option String :=
  match jvAtPath? j path with
  | some (.str s) => some s
  | _ => none

/-- The loop over the continuation map (src/query.go, lines 89-96): set
each string-valued pair on the parameter map; a non-string value stops
the loop with the params mutated so far and reports failure. -/
def mergeCont : Values → List (String × Jv) → Values × Bool
  | p, [] => (p, true)
  | p, (k, .str s) :: rest => mergeCont (p.set k s) rest
  | p, (_, _) :: _ => (p, false)

/-- `Client.NewQuery` (src/query.go, lines 61-71): force `action=query`
and seed `continue=` on the caller's map. -/
def newQuery (p : Values) : QueryState :=
  { params := (p.set "action" "query").set "continue" ""
    resp := none
    err := none
    calls := 0 }

/-- `Query.Next` (src/query.go, lines 77-100). A nil stored response
(first call, or a previous `Get` that failed hard) issues a request.
Otherwise the prior response's `continue` object is merged into the
parameters and the next request issued; a missing `continue` object
returns false with the state untouched. -/
def next (net : Nat → Option Jv × Option String) (q : QueryState) :
    Bool × QueryState :=
  match q.resp with
  | none =>
    let r := net q.calls
    (r.2.isNone,
      { params := q.params, resp := r.1, err := r.2, calls := q.calls + 1 })
  | some js =>
    match jGetObject? js ["continue"] with
    | none => (false, q)
    | some contFs =>
      match mergeCont q.params contFs with
      | (p₂, false) =>
        (false, { q with params := p₂, err := some "response processing error" })
      | (p₂, true) =>
        let r := net q.calls
        (r.2.isNone,
          { params := p₂, resp := r.1, err := r.2, calls := q.calls + 1 })

/-! ### Login (src/unnamed/part_006, lines 261-306 and src/core.go,
lines 342-369)

The server side of the handshake is modelled as a list of replies, one
consumed per `Post`. A reply is either the decoded `login` object
(result string, optional token, optional reason), a hard post error, or
a response whose result field is not a string. -/

/-- One server reply to a login post. -/
inductive LoginReply
  | reply (result : String) (token : Option String) (reason : Option String)
  | postErr (e : String)
  | badResult
deriving DecidableEq

/-- The failure alternatives of `Login`. -/
inductive LoginErr
  | api (code info : String)
  | decode (what : String)
  | hard (e : String)
  | noReply
deriving DecidableEq

/-- The overall result of `Login`. -/
inductive LoginResult
  | success
  | failure (e : LoginErr)
deriving DecidableEq

/-- The self-recursive `loginFunc` closure of the historical variant
(src/unnamed/part_006, lines 266-303): post with the given `lgtoken`
(none on the first round); on result `NeedToken` with a token, recurse
with that token; `Success` succeeds; any other result is an
`APIError` with that code. Returns the outcome and the `lgtoken` values
sent, one per post made. Exhausting the reply list models a server that
never answers (`noReply`). -/
def loginFunc : Option String → List LoginReply → LoginResult × List (Option String)
  | tok, [] => (.failure .noReply, [tok])
  | tok, .postErr e :: _ => (.failure (.hard e), [tok])
  | tok, .badResult :: _ => (.failure (.decode "result"), [tok])
  | tok, .reply res rtok _ :: rest =>
    if res = "Success" then (.success, [tok])
    else if res = "NeedToken" then
      match rtok with
      | none => (.failure (.decode "token"), [tok])
      | some t =>
        let p := loginFunc (some t) rest
        (p.1, tok :: p.2)
    else (.failure (.api res ""), [tok])

/-- Does this reply make `loginFunc` recurse (result `NeedToken` with a
token value)? -/
def continuesHandshake : LoginReply → Bool
  | .reply res (some _) _ => res == "NeedToken"
  | _ => false

/-- The outcome `loginFunc` produces for a terminal reply (one with
`continuesHandshake` false). -/
def terminalOutcome : LoginReply → LoginResult
  | .postErr e => .failure (.hard e)
  | .badResult => .failure (.decode "result")
  | .reply res _ _ =>
    if res == "Success" then .success
    else if res == "NeedToken" then .failure (.decode "token")
    else .failure (.api res "")

/-- `Client.Login` of current core.go (lines 342-369): fetch a login
token via `GetToken`, make exactly one post, and map any non-`Success`
result (including `NeedToken`) to an `APIError` whose code is the result
string and whose info is the optional `login.reason`. Returns the
outcome and the number of login posts made. -/
def loginCore (tokenRes : Except String String) (replies : List LoginReply) :
    LoginResult × Nat :=
  match tokenRes with
  | .error e => (.failure (.hard e), 0)
  | .ok _ =>
    match replies with
    | [] => (.failure .noReply, 1)
    | .postErr e :: _ => (.failure (.hard e), 1)
    | .badResult :: _ => (.failure (.decode "result"), 1)
    | .reply res _ reason :: _ =>
      if res = "Success" then (.success, 1)
      else (.failure (.api res (reason.getD "")), 1)

/-! ### GetToken (src/edit.go, lines 735-764)

The current variant: a cached token is returned without a request except
for the name `"login"`, which always fetches fresh; a fetched token is
stored in the cache unless its name is `"login"`. The network is modelled
at the `Get` boundary as the decoded response (or a hard error); the
third component of the result records whether a network request was
made. -/

/-- The `LoginToken` constant (src/edit.go, line 726). -/
def LoginToken : String := "login"

/-- The fetch path of `GetToken`: issue the `meta=tokens` query, read
`query.tokens.<name>token` as a string, and cache the token unless the
name is `LoginToken`. -/
def getTokenFetch (tokens : Values) (resp : Except String Jv) (name : String) :
    Except String String × Values × Bool :=
  match resp with
  | .error e => (.error e, tokens, true)
  | .ok js =>
    match jGetString js ["query", "tokens", name ++ "token"] with
    | none => (.error "error occured while converting token to string", tokens, true)
    | some tok =>
      (.ok tok, (if name ≠ LoginToken then tokens.set name tok else tokens), true)

/-- `Client.GetToken` (src/edit.go, lines 735-764). -/
def getToken (tokens : Values) (resp : Except String Jv) (name : String) :
    Except String String × Values × Bool :=
  if name ≠ LoginToken then
    match tokens.lookup? name with
    | some tok => (.ok tok, tokens, false)
    | none => getTokenFetch tokens resp name
  else getTokenFetch tokens resp name

/-- A concrete `Get` stream for exercising the query cursor: the first
request fails hard (no decoded response), the second succeeds with an
empty object. -/
def c3net : Nat → Option Jv × Option String :=
  fun n => if n = 0 then (none, some "hard error") else (some (.obj []), none)

end Mwclient

/-! ## Theorems -/

namespace Params

open Mwclient

/-! ### Association-list map lemmas -/

theorem lookup_set_same (v : Values) (k val : String) :
    Values.lookup? (Values.set v k val) k = some val := by
  induction v with
  | nil => simp [Values.set, Values.lookup?]
  | cons hd tl ih =>
    obtain ⟨k₂, v₂⟩ := hd
    by_cases h : k₂ = k
    · simp [Values.set, h, Values.lookup?]
    · simp [Values.set, h, Values.lookup?, ih]

theorem lookup_set_ne (v : Values) (k k₂ val : String) (h : k₂ ≠ k) :
    Values.lookup? (Values.set v k val) k₂ = Values.lookup? v k₂ := by
  induction v with
  | nil => simp [Values.set, Values.lookup?, Ne.symm h]
  | cons hd tl ih =>
    obtain ⟨k₃, v₃⟩ := hd
    by_cases h₃ : k₃ = k
    · subst h₃
      simp [Values.set, Values.lookup?, Ne.symm h]
    · simp [Values.set, Values.lookup?, h₃, ih]

theorem get_set_same (v : Values) (k val : String) :
    Values.get (Values.set v k val) k = val := by
  simp [Values.get, lookup_set_same]

theorem get_set_ne (v : Values) (k k₂ val : String) (h : k₂ ≠ k) :
    Values.get (Values.set v k val) k₂ = Values.get v k₂ := by
  simp [Values.get, lookup_set_ne v k k₂ val h]

theorem set_set_same (v : Values) (k a b : String) :
    Values.set (Values.set v k a) k b = Values.set v k b := by
  induction v with
  | nil => simp [Values.set]
  | cons hd tl ih =>
    obtain ⟨k₂, v₂⟩ := hd
    by_cases h : k₂ = k
    · simp [Values.set, h]
    · simp [Values.set, h, ih]

theorem set_of_lookup_eq (v : Values) (k a : String)
    (h : Values.lookup? v k = some a) : Values.set v k a = v := by
  induction v with
  | nil => simp [Values.lookup?] at h
  | cons hd tl ih =>
    obtain ⟨k₂, v₂⟩ := hd
    by_cases h₂ : k₂ = k
    · subst h₂
      simp [Values.lookup?] at h
      simp [Values.set, h]
    · simp [Values.lookup?, h₂] at h
      simp [Values.set, h₂, ih h]

/-! ### Claim C7 -/

theorem strJoin_pair (a b sep : String) : strJoin [a, b] sep = a ++ sep ++ b := by
  simp [strJoin]

theorem strJoin_glue (a b sep : String) (l : List String) :
    strJoin ((a ++ sep ++ b) :: l) sep = a ++ sep ++ strJoin (b :: l) sep := by
  cases l with
  | nil => simp [strJoin]
  | cons c cs => simp [strJoin, String.append_assoc]

/-- Folding `Add` over a list of values, starting from a map where the
key is present, pipes all of them onto the existing value. -/
theorem foldl_add_of_lookup (k : String) (vs : List String) :
    ∀ (v : Values) (cur : String), Values.lookup? v k = some cur →
      vs.foldl (fun m x => Values.add m k x) v
        = Values.set v k (strJoin (cur :: vs) "|") := by
  induction vs with
  | nil =>
    intro v cur h
    simpa [strJoin] using (set_of_lookup_eq v k cur h).symm
  | cons x xs ih =>
    intro v cur h
    have hstep : Values.add v k x = Values.set v k (cur ++ "|" ++ x) := by
      simp [Values.add, h, strJoin_pair]
    calc (x :: xs).foldl (fun m x => Values.add m k x) v
        = xs.foldl (fun m x => Values.add m k x) (Values.set v k (cur ++ "|" ++ x)) := by
          simp [List.foldl_cons, hstep]
      _ = Values.set (Values.set v k (cur ++ "|" ++ x)) k
            (strJoin ((cur ++ "|" ++ x) :: xs) "|") :=
          ih _ _ (lookup_set_same v k (cur ++ "|" ++ x))
      _ = Values.set v k (strJoin (cur :: x :: xs) "|") := by
          rw [set_set_same, strJoin_glue]
          rfl

/-- C7, amended: a run of `Add` calls and one `AddRange` call produce the
same map — hence byte-identical `Encode` output — whenever the value
sequence is nonempty or the key is already present. (The excluded corner
is the counterexample below.) -/
theorem c7_add_addRange_encode (v : Values) (k : String) (vs : List String)
    (h : vs ≠ [] ∨ (Values.lookup? v k).isSome) :
    Values.encode (vs.foldl (fun m x => Values.add m k x) v)
      = Values.encode (Values.addRange v k vs) := by
  cases hcur : Values.lookup? v k with
  | some cur =>
    rw [foldl_add_of_lookup k vs v cur hcur]
    simp [Values.addRange, hcur]
  | none =>
    cases vs with
    | nil =>
      rcases h with h | h
      · exact absurd rfl h
      · rw [hcur] at h
        simp at h
    | cons x xs =>
      have hstep : Values.add v k x = Values.set v k x := by
        simp [Values.add, hcur]
      rw [List.foldl_cons, hstep,
        foldl_add_of_lookup k xs (Values.set v k x) x (lookup_set_same v k x),
        set_set_same]
      simp [Values.addRange, hcur]

/-- Witness for C7: three `Add` calls on a fresh key encode identically
to one `AddRange`. -/
theorem c7_witness :
    Values.encode ((["bar", "quux", "x"]).foldl
        (fun m x => Values.add m "foo" x) ([] : Values))
      = Values.encode (Values.addRange ([] : Values) "foo" ["bar", "quux", "x"]) :=
  c7_add_addRange_encode [] "foo" ["bar", "quux", "x"] (Or.inl (by decide))

/-- Counterexample to C7 as stated: for the empty value sequence on an
absent key, zero `Add` calls leave the map empty (`Encode` = `""`), but
`AddRange` with zero values inserts the key with an empty value
(`Encode` = `"a="`). -/
theorem c7_counterexample :
    Values.encode (([] : List String).foldl
        (fun m x => Values.add m "a" x) ([] : Values)) = ""
    ∧ Values.encode (Values.addRange ([] : Values) "a" ([] : List String)) = "a="
    ∧ ("" : String) ≠ "a=" := by
  refine ⟨rfl, ?_, by decide⟩
  decide

/-! ### Claim C1 -/

theorem append_ne_empty_left (s t : String) (h : s ≠ "") : s ++ t ≠ "" := by
  intro hc
  apply h
  apply String.ext
  have hd : s.data ++ t.data = [] := by
    have h₂ := congrArg String.data hc
    rwa [String.data_append] at h₂
  simp only [List.append_eq_nil] at hd
  simp [hd.1]

theorem append_ne_empty_right (s t : String) (h : t ≠ "") : s ++ t ≠ "" := by
  intro hc
  apply h
  apply String.ext
  have hd : s.data ++ t.data = [] := by
    have h₂ := congrArg String.data hc
    rwa [String.data_append] at h₂
  simp only [List.append_eq_nil] at hd
  simp [hd.2]

theorem entryOf_ne_empty (v : Values) (k : String) : entryOf v k ≠ "" :=
  append_ne_empty_left _ _ (append_ne_empty_right _ _ (by decide))

/-- Splitting the fold in `Values.encode` into its buffer (the non-token
entries accumulated with `&` separators) and its token flag. -/
theorem encode_foldl_split (v : Values) (keys : List String) :
    ∀ (s : String) (b : Bool),
      keys.foldl (encodeStep v) (s, b)
        = (((keys.filter fun k => k ≠ "token").map (entryOf v)).foldl
            (fun buf e => (if buf = "" then buf else buf ++ "&") ++ e) s,
          b || keys.contains "token") := by
  induction keys with
  | nil => intro s b; simp
  | cons k ks ih =>
    intro s b
    by_cases hk : k = "token"
    · subst hk
      simp [List.foldl_cons, encodeStep, ih, List.contains_cons]
    · simp [List.foldl_cons, encodeStep, hk, ih, List.contains_cons,
        Ne.symm hk, entryOf, String.append_assoc]

theorem foldl_amp_of_ne (es : List String) :
    ∀ s : String, s ≠ "" →
      es.foldl (fun buf e => (if buf = "" then buf else buf ++ "&") ++ e) s
        = s ++ suffixJoin es := by
  induction es with
  | nil => intro s _; simp [suffixJoin]
  | cons e es ih =>
    intro s h
    have hne : s ++ "&" ++ e ≠ "" :=
      append_ne_empty_left _ _ (append_ne_empty_left _ _ h)
    calc (e :: es).foldl (fun buf e => (if buf = "" then buf else buf ++ "&") ++ e) s
        = es.foldl (fun buf e => (if buf = "" then buf else buf ++ "&") ++ e)
            (s ++ "&" ++ e) := by simp [if_neg h]
      _ = (s ++ "&" ++ e) ++ suffixJoin es := ih _ hne
      _ = s ++ suffixJoin (e :: es) := by
          simp [suffixJoin, String.append_assoc]

theorem strJoin_eq_suffixJoin (es : List String) :
    ∀ e : String, strJoin (e :: es) "&" = e ++ suffixJoin es := by
  induction es with
  | nil => intro e; simp [strJoin, suffixJoin]
  | cons c cs ih =>
    intro e
    simp [strJoin, suffixJoin, ih, String.append_assoc]

theorem foldl_amp_empty (es : List String) (h : ∀ e ∈ es, e ≠ "") :
    es.foldl (fun buf e => (if buf = "" then buf else buf ++ "&") ++ e) ""
      = strJoin es "&" := by
  cases es with
  | nil => rfl
  | cons e es₂ =>
    have he : e ≠ "" := h e (by simp)
    rw [List.foldl_cons, strJoin_eq_suffixJoin]
    simpa using foldl_amp_of_ne es₂ e he

/-- C1, amended: `Encode` emits the non-token entries sorted and joined
by `&`, and appends the literal `"&token=" ++ escape(value)` whenever
`token` is present — so a map whose only key is `token` encodes with a
leading `&`. A nil/empty map encodes to the empty string. -/
theorem c1_encode_token_last :
    (∀ v : Values, Values.encode v = encodeSpecAmended v)
    ∧ Values.encode ([] : Values) = "" := by
  constructor
  · intro v
    have hne : ∀ e ∈ ((sortStrings (v.map Prod.fst)).filter
        fun k => k ≠ "token").map (entryOf v), e ≠ "" := by
      intro e he
      simp only [List.mem_map] at he
      obtain ⟨k, _, hk⟩ := he
      exact hk ▸ entryOf_ne_empty v k
    simp only [Values.encode, encodeSpecAmended]
    rw [encode_foldl_split v _ "" false, foldl_amp_empty _ hne]
    by_cases hm : "token" ∈ sortStrings (v.map Prod.fst)
    · simp [hm, String.append_assoc]
    · simp [hm]
  · rfl

/-- Counterexample to C1 as stated: a map containing only `token`
encodes to `"&token=x"` (leading `&`), not to the `&`-joined form
`"token=x"` that the claim describes. -/
theorem c1_counterexample :
    Values.encode [("token", "x")] = "&token=x"
    ∧ encodeSpecClaim [("token", "x")] = "token=x"
    ∧ Values.encode [("token", "x")] ≠ encodeSpecClaim [("token", "x")] := by
  refine ⟨?_, ?_, ?_⟩ <;> decide

end Params

namespace Mwclient

open Params

/-! ### Retry loop lemmas (claims C2 and C9) -/

theorem retryLoop_lag_step (tm : String) (as : AssertT) (tr : Nat → TransportOut)
    (t rem : Nat) (p : Values) (h : isLag (tr t) = true) :
    retryLoop tm as tr t (rem + 1) p
      = retryLoop tm as tr (t + 1) rem (prepare true tm as p) := by
  cases htr : tr t with
  | maxLag m w => simp [retryLoop, htr]
  | ok b => simp [isLag, htr] at h
  | hard e => simp [isLag, htr] at h

theorem retryLoop_stop_step (tm : String) (as : AssertT) (tr : Nat → TransportOut)
    (t rem : Nat) (p : Values) (h : isLag (tr t) = false) :
    retryLoop tm as tr t (rem + 1) p
      = (liftOut (tr t), t + 1, prepare true tm as p) := by
  cases htr : tr t with
  | maxLag m w => simp [isLag, htr] at h
  | ok b => simp [retryLoop, htr]
  | hard e => simp [retryLoop, htr]

theorem retryLoop_busy (tm : String) (as : AssertT) (tr : Nat → TransportOut) :
    ∀ (rem t : Nat) (p : Values), (∀ i, i < rem → isLag (tr (t + i)) = true) →
      (retryLoop tm as tr t rem p).1 = .apiBusy
      ∧ (retryLoop tm as tr t rem p).2.1 = t + rem := by
  intro rem
  induction rem with
  | zero => intro t p _; simp [retryLoop]
  | succ n ih =>
    intro t p h
    have h0 : isLag (tr t) = true := by simpa using h 0 (Nat.succ_pos n)
    rw [retryLoop_lag_step tm as tr t n p h0]
    have h₂ : ∀ i, i < n → isLag (tr (t + 1 + i)) = true := by
      intro i hi
      have h₃ := h (i + 1) (by omega)
      rwa [show t + (i + 1) = t + 1 + i by omega] at h₃
    obtain ⟨ha, hb⟩ := ih (t + 1) (prepare true tm as p) h₂
    exact ⟨ha, by rw [hb]; omega⟩

theorem retryLoop_stops (tm : String) (as : AssertT) (tr : Nat → TransportOut) :
    ∀ (k rem t : Nat) (p : Values), k < rem →
      (∀ i, i < k → isLag (tr (t + i)) = true) → isLag (tr (t + k)) = false →
      (retryLoop tm as tr t rem p).1 = liftOut (tr (t + k))
      ∧ (retryLoop tm as tr t rem p).2.1 = t + k + 1 := by
  intro k
  induction k with
  | zero =>
    intro rem t p hlt _ hstop
    obtain ⟨rem₂, rfl⟩ : ∃ r, rem = r + 1 := ⟨rem - 1, by omega⟩
    rw [retryLoop_stop_step tm as tr t rem₂ p (by simpa using hstop)]
    simp
  | succ k ih =>
    intro rem t p hlt hlag hstop
    obtain ⟨rem₂, rfl⟩ : ∃ r, rem = r + 1 := ⟨rem - 1, by omega⟩
    have h0 : isLag (tr t) = true := by simpa using hlag 0 (Nat.succ_pos k)
    rw [retryLoop_lag_step tm as tr t rem₂ p h0]
    have hlag₂ : ∀ i, i < k → isLag (tr (t + 1 + i)) = true := by
      intro i hi
      have h₃ := hlag (i + 1) (by omega)
      rwa [show t + (i + 1) = t + 1 + i by omega] at h₃
    have hstop₂ : isLag (tr (t + 1 + k)) = false := by
      rwa [show t + (k + 1) = t + 1 + k by omega] at hstop
    obtain ⟨ha, hb⟩ := ih rem₂ (t + 1) (prepare true tm as p) (by omega) hlag₂ hstop₂
    constructor
    · rw [ha, show t + 1 + k = t + (k + 1) by omega]
    · rw [hb]; omega

/-- C2: with maxlag on and a transport that lags on the first `N`
attempts and then does not, `Retries = N+1` yields that outcome after
exactly `N+1` attempts (in particular success when attempt `N`
succeeds), `Retries = N` yields `ErrAPIBusy` after exactly `N` attempts,
any non-lag outcome terminates the loop immediately (the general third
conjunct), and with maxlag off exactly one attempt is made with the
outcome passed through unmodified. -/
theorem c2_retry_loop (tm : String) (as : AssertT) (N : Nat)
    (tr : Nat → TransportOut) (b : String) (p : Values)
    (hlag : ∀ i, i < N → isLag (tr i) = true)
    (hok : tr N = .ok b) :
    ((call true tm as (N + 1) tr p).1 = .ok b
      ∧ (call true tm as (N + 1) tr p).2.1 = N + 1)
    ∧ ((call true tm as N tr p).1 = .apiBusy
      ∧ (call true tm as N tr p).2.1 = N)
    ∧ (∀ retries k, k < retries → (∀ i, i < k → isLag (tr i) = true) →
        isLag (tr k) = false →
        (call true tm as retries tr p).1 = liftOut (tr k)
        ∧ (call true tm as retries tr p).2.1 = k + 1)
    ∧ (∀ (retries : Nat) (tr₂ : Nat → TransportOut) (q : Values),
        (call false tm as retries tr₂ q).1 = liftOut (tr₂ 0)
        ∧ (call false tm as retries tr₂ q).2.1 = 1) := by
  have hstops : ∀ retries k, k < retries → (∀ i, i < k → isLag (tr i) = true) →
      isLag (tr k) = false →
      (call true tm as retries tr p).1 = liftOut (tr k)
      ∧ (call true tm as retries tr p).2.1 = k + 1 := by
    intro retries k hk hl hs
    have h₂ := retryLoop_stops tm as tr k retries 0 p hk
      (by intro i hi; simpa using hl i hi) (by simpa using hs)
    simpa [call] using h₂
  refine ⟨?_, ?_, hstops, ?_⟩
  · have h₂ := hstops (N + 1) N (by omega) hlag (by rw [hok]; rfl)
    rw [hok] at h₂
    exact h₂
  · have h₂ := retryLoop_busy tm as tr N 0 p (by intro i hi; simpa using hlag i hi)
    simpa [call] using h₂
  · intro retries tr₂ q
    simp [call]

/-- Witness for C2: a transport lagging exactly twice then succeeding,
with 3 retries, succeeds after three attempts; with 2 retries the call
is `ErrAPIBusy` after two attempts. -/
theorem c2_witness :
    ((call true "5" .assertNone 3
        (fun i => if i < 2 then .maxLag "lagged" 5 else .ok "body") []).1
      = .ok "body")
    ∧ ((call true "5" .assertNone 2
        (fun i => if i < 2 then .maxLag "lagged" 5 else .ok "body") []).1
      = .apiBusy) := by
  have h := c2_retry_loop "5" .assertNone 2
    (fun i => if i < 2 then .maxLag "lagged" 5 else .ok "body") "body" []
    (by
      intro i hi
      have h₂ : i = 0 ∨ i = 1 := by omega
      rcases h₂ with h₂ | h₂ <;> subst h₂ <;> rfl)
    rfl
  exact ⟨h.1.1, h.2.1.1⟩

/-! ### Parameter preparation lemmas (claim C9) -/

theorem prepAssert_get (as : AssertT) (q : Values) (k : String)
    (h : k ≠ "assert") : Values.get (prepAssert as q) k = Values.get q k := by
  cases as <;> simp [prepAssert, get_set_ne _ _ _ _ h]

theorem prepMaxlag_get (mlOn : Bool) (tm : String) (q : Values) (k : String)
    (h : k ≠ "maxlag") : Values.get (prepMaxlag mlOn tm q) k = Values.get q k := by
  unfold prepMaxlag
  split_ifs <;> simp [get_set_ne _ _ _ _ h]

theorem prepMaxlag_ml (tm : String) (q : Values)
    (h : Values.get q "maxlag" = "" ∨ Values.get q "maxlag" = tm) :
    Values.get (prepMaxlag true tm q) "maxlag" = tm := by
  by_cases hc : Values.get q "maxlag" = ""
  · simp [prepMaxlag, hc, get_set_same]
  · rcases h with h | h
    · exact absurd h hc
    · simp only [prepMaxlag, if_true]
      rw [if_neg hc]
      exact h

theorem prepFormat_format (q : Values) :
    Values.get (prepFormat q) "format" = "json" := by
  simp only [prepFormat]
  split_ifs <;> simp [get_set_same, get_set_ne]

theorem prepFormat_fv (q : Values)
    (h : Values.get q "formatversion" = "" ∨ Values.get q "formatversion" = "2") :
    Values.get (prepFormat q) "formatversion" = "2" := by
  simp only [prepFormat]
  have hq : Values.get (Values.set q "format" "json") "formatversion"
      = Values.get q "formatversion" := get_set_ne _ _ _ _ (by simp)
  rcases h with h | h
  · rw [if_neg (by simp [hq, h]), if_pos (by simp [hq, h])]
    simp [get_set_same]
  · rw [if_neg (by simp [hq, h]), if_neg (by simp [hq, h])]
    simp [hq, h]

theorem prepFormat_get (q : Values) (k : String) (h₁ : k ≠ "format")
    (h₂ : k ≠ "formatversion") (h₃ : k ≠ "utf8") :
    Values.get (prepFormat q) k = Values.get q k := by
  simp only [prepFormat]
  split_ifs <;>
    simp [get_set_ne _ _ _ _ h₁, get_set_ne _ _ _ _ h₂, get_set_ne _ _ _ _ h₃]

theorem prepare_format (mlOn : Bool) (tm : String) (as : AssertT) (q : Values) :
    Values.get (prepare mlOn tm as q) "format" = "json" := by
  unfold prepare
  rw [prepAssert_get _ _ _ (by simp), prepMaxlag_get _ _ _ _ (by simp),
    prepFormat_format]

theorem prepare_fv (mlOn : Bool) (tm : String) (as : AssertT) (q : Values)
    (h : Values.get q "formatversion" = "" ∨ Values.get q "formatversion" = "2") :
    Values.get (prepare mlOn tm as q) "formatversion" = "2" := by
  unfold prepare
  rw [prepAssert_get _ _ _ (by simp), prepMaxlag_get _ _ _ _ (by simp),
    prepFormat_fv _ h]

theorem prepare_ml (tm : String) (as : AssertT) (q : Values)
    (h : Values.get q "maxlag" = "" ∨ Values.get q "maxlag" = tm) :
    Values.get (prepare true tm as q) "maxlag" = tm := by
  unfold prepare
  rw [prepAssert_get _ _ _ (by simp), prepMaxlag_ml]
  rwa [prepFormat_get _ _ (by simp) (by simp) (by simp)]

theorem retryLoop_params (tm : String) (as : AssertT) (tr : Nat → TransportOut)
    (P : Values → Prop) (hpres : ∀ q, P q → P (prepare true tm as q)) :
    ∀ rem, 1 ≤ rem → ∀ (t : Nat) (q : Values), P (prepare true tm as q) →
      P ((retryLoop tm as tr t rem q).2.2) := by
  intro rem
  induction rem with
  | zero => intro h; omega
  | succ n ih =>
    intro _ t q hbase
    cases htr : tr t with
    | maxLag m w =>
      rw [retryLoop_lag_step tm as tr t n q (by simp [isLag, htr])]
      cases n with
      | zero => simpa [retryLoop] using hbase
      | succ n₂ =>
        exact ih (by omega) (t + 1) (prepare true tm as q) (hpres _ hbase)
    | ok b =>
      rw [retryLoop_stop_step tm as tr t n q (by simp [isLag, htr])]
      exact hbase
    | hard e =>
      rw [retryLoop_stop_step tm as tr t n q (by simp [isLag, htr])]
      exact hbase

/-- C9: provided at least one attempt is made (maxlag off, or a retry
budget of at least 1), the caller's parameter map after any call through
the core contains `format=json`; contains `formatversion=2` when the
caller had left `formatversion` unset; and, when maxlag is on and the
caller had left `maxlag` unset, contains the configured timeout under
`maxlag`. (In-place mutation of the Go map is modelled by returning the
final map.) -/
theorem c9_param_injection (mlOn : Bool) (tm : String) (as : AssertT)
    (retries : Nat) (tr : Nat → TransportOut) (p : Values)
    (h : mlOn = false ∨ 1 ≤ retries) :
    Values.get (call mlOn tm as retries tr p).2.2 "format" = "json"
    ∧ (Values.get p "formatversion" = "" →
        Values.get (call mlOn tm as retries tr p).2.2 "formatversion" = "2")
    ∧ (mlOn = true → Values.get p "maxlag" = "" →
        Values.get (call mlOn tm as retries tr p).2.2 "maxlag" = tm) := by
  cases mlOn with
  | false =>
    refine ⟨prepare_format _ _ _ _, fun h0 => prepare_fv _ _ _ _ (Or.inl h0),
      fun hon => absurd hon (by simp)⟩
  | true =>
    have hr : 1 ≤ retries := by
      rcases h with h | h
      · exact absurd h (by simp)
      · exact h
    have hP := retryLoop_params tm as tr
      (fun q => Values.get q "format" = "json"
        ∧ (Values.get p "formatversion" = "" →
            Values.get q "formatversion" = "2")
        ∧ (Values.get p "maxlag" = "" → Values.get q "maxlag" = tm))
      (by
        intro q hq
        refine ⟨prepare_format _ _ _ _, fun h0 => prepare_fv _ _ _ _ (Or.inr (hq.2.1 h0)),
          fun hml => prepare_ml _ _ _ (Or.inr (hq.2.2 hml))⟩)
      retries hr 0 p
      ⟨prepare_format _ _ _ _, fun h0 => prepare_fv _ _ _ _ (Or.inl h0),
        fun hml => prepare_ml _ _ _ (Or.inl hml)⟩
    refine ⟨hP.1, fun h0 => hP.2.1 h0, fun _ hml => hP.2.2 hml⟩

/-- Witness for C9: with maxlag on, timeout `"5"` and 3 retries on an
empty map, the map after the call carries `format`, `formatversion`, and
`maxlag`. -/
theorem c9_witness :
    Values.get (call true "5" .assertNone 3 (fun _ => .ok "x") []).2.2 "format"
      = "json"
    ∧ Values.get (call true "5" .assertNone 3
        (fun _ => .ok "x") []).2.2 "formatversion" = "2"
    ∧ Values.get (call true "5" .assertNone 3
        (fun _ => .ok "x") []).2.2 "maxlag" = "5" := by
  have h := c9_param_injection true "5" .assertNone 3 (fun _ => .ok "x") []
    (Or.inr (by omega))
  exact ⟨h.1, h.2.1 rfl, h.2.2 rfl rfl⟩

/-! ### Claim C4 -/

/-- C4, amended: with a nonempty database-lag header, current core.go
classifies the response as the maxlag signal carrying the raw body and
the parsed `Retry-After` only when parsing succeeds; an unparseable
`Retry-After` makes the call fail with the parse error itself. The
historical variant (part_006) discards the parse error and defaults the
wait to 0. Without the header the body is a plain success. -/
theorem c4_lag_classification (db ra body : String) (hdb : db ≠ "") :
    (∀ n, atoi ra = .ok n → classifyLag db ra body = .ok (.maxLag body n))
    ∧ (∀ e, atoi ra = .error e → classifyLag db ra body = .error e)
    ∧ classifyLagV1 db ra body = .ok (.maxLag body (atoiOr0 ra))
    ∧ (∀ ra₂ body₂ : String, classifyLag "" ra₂ body₂ = .ok (.ok body₂)) := by
  refine ⟨?_, ?_, ?_, ?_⟩
  · intro n hn
    simp [classifyLag, hdb, hn]
  · intro e he
    simp [classifyLag, hdb, he]
  · simp [classifyLagV1, hdb]
  · intro ra₂ body₂
    simp [classifyLag]

/-- Witness for C4 (amended): a parseable `Retry-After` of `"3"` yields
the maxlag signal with wait 3; an unparseable one propagates the syntax
error; the part_006 variant maps the same unparseable header to wait 0. -/
theorem c4_witness :
    classifyLag "1" "3" "lagged" = .ok (.maxLag "lagged" 3)
    ∧ classifyLag "1" "abc" "lagged" = .error "invalid syntax"
    ∧ classifyLagV1 "1" "abc" "lagged" = .ok (.maxLag "lagged" 0) := by
  have h₁ := c4_lag_classification "1" "3" "lagged" (by decide)
  have h₂ := c4_lag_classification "1" "abc" "lagged" (by decide)
  exact ⟨h₁.1 3 rfl, h₂.2.1 "invalid syntax" rfl, h₂.2.2.1⟩

/-- Counterexample to C4 as stated: with the lag header set and
`Retry-After = "abc"`, current core.go returns the parse error as a hard
failure instead of the transient-overload outcome with wait 0. -/
theorem c4_counterexample :
    classifyLag "1" "abc" "lag body" = .error "invalid syntax"
    ∧ classifyLag "1" "abc" "lag body" ≠ .ok (.maxLag "lag body" 0) := by
  constructor
  · rfl
  · intro h
    exact Except.noConfusion h

/-! ### Claim C6 -/

theorem splitChar_no_sep (sep : Char) :
    ∀ l : List Char, (l.any fun d => d == sep) = false → splitChar l sep = [l] := by
  intro l
  induction l with
  | nil => intro _; rfl
  | cons c cs ih =>
    intro h
    simp only [List.any_cons, Bool.or_eq_false_iff, beq_eq_false_iff_ne] at h
    rw [splitChar, ih (by simp [h.2])]
    simp [h.1]

theorem strSplit_no_sep (s : String) (sep : Char)
    (h : containsChar s sep = false) : strSplit s sep = [s] := by
  unfold strSplit
  rw [splitChar_no_sep sep s.data h]
  rfl

theorem buildWarnings_eq (wf : List (String × Jv))
    (h : ∀ q ∈ wf, (starInfo? q.2).isSome) :
    buildWarnings wf
      = some (wf.flatMap fun q =>
          (strSplit ((starInfo? q.2).getD "") '\n').map fun line => (q.1, line)) := by
  induction wf with
  | nil => rfl
  | cons hd tl ih =>
    obtain ⟨module, v⟩ := hd
    obtain ⟨info, hinfo⟩ := Option.isSome_iff_exists.mp (h (module, v) (by simp))
    rw [buildWarnings, hinfo, ih (fun q hq => h q (by simp [hq]))]
    by_cases hc : containsChar info '\n'
    · simp [hc, hinfo]
    · simp only [Bool.not_eq_true] at hc
      simp [hc, hinfo, strSplit_no_sep info '\n' hc]

/-- C6, amended: a present `error` object short-circuits (warnings are
not inspected) and produces `APIError(code, info)` read with
`MustString` — so a present but non-string `code`/`info` member yields
the empty string rather than a malformed-response error; only an absent
`code` or `info` member yields the malformed-response error. Otherwise a
`warnings` object yields one warning per newline-separated line of each
module's `*` string, tagged with that module; with neither key there is
no failure. -/
theorem c6_extract_errors (resp : List (String × Jv)) :
    (∀ e c i, objGet? resp "error" = some e → jvCheckGet e "code" = some c →
      jvCheckGet e "info" = some i →
      extractAPIErrors resp = some (.apiErr (mustString c) (mustString i)))
    ∧ (∀ e, objGet? resp "error" = some e →
        (jvCheckGet e "code" = none ∨ jvCheckGet e "info" = none) →
        extractAPIErrors resp = some .brokenErr)
    ∧ (∀ wf, objGet? resp "error" = none →
        objGet? resp "warnings" = some (.obj wf) →
        (∀ q ∈ wf, (starInfo? q.2).isSome) →
        extractAPIErrors resp
          = some (.warnings (wf.flatMap fun q =>
              (strSplit ((starInfo? q.2).getD "") '\n').map fun line => (q.1, line))))
    ∧ (objGet? resp "error" = none → objGet? resp "warnings" = none →
        extractAPIErrors resp = none) := by
  refine ⟨?_, ?_, ?_, ?_⟩
  · intro e c i he hc hi
    simp [extractAPIErrors, he, hc, hi]
  · intro e he hci
    rcases hci with hc | hi
    · simp [extractAPIErrors, he, hc]
    · cases hcode : jvCheckGet e "code" <;> simp [extractAPIErrors, he, hcode, hi]
  · intro wf he hw hstar
    simp [extractAPIErrors, he, hw, buildWarnings_eq wf hstar]
  · intro he hw
    simp [extractAPIErrors, he, hw]

/-- Witness for C6: a response with a well-formed `error` object yields
that APIError; a response with only a `warnings` object whose info
contains a newline yields one warning per line. -/
theorem c6_witness :
    extractAPIErrors [("error", .obj [("code", .str "nouser"),
        ("info", .str "The user parameter must be set")])]
      = some (.apiErr "nouser" "The user parameter must be set")
    ∧ extractAPIErrors [("warnings", .obj [("main", .obj [("*", .str "w1\nw2")])])]
      = some (.warnings [("main", "w1"), ("main", "w2")]) := by
  constructor
  · exact (c6_extract_errors [("error", .obj [("code", .str "nouser"),
      ("info", .str "The user parameter must be set")])]).1
      (.obj [("code", .str "nouser"),
        ("info", .str "The user parameter must be set")])
      (.str "nouser") (.str "The user parameter must be set") rfl rfl rfl
  · exact (c6_extract_errors
      [("warnings", .obj [("main", .obj [("*", .str "w1\nw2")])])]).2.2.1
      [("main", .obj [("*", .str "w1\nw2")])] rfl rfl (by decide)

/-- Counterexample to C6 as stated: an `error` object whose `code` is a
number (so there is no string `code` field) does not yield the
malformed-response decode error; `MustString` turns it into
`APIError("", info)`. -/
theorem c6_counterexample :
    extractAPIErrors [("error", .obj [("code", .num 5), ("info", .str "x")])]
      = some (.apiErr "" "x")
    ∧ extractAPIErrors [("error", .obj [("code", .num 5), ("info", .str "x")])]
      ≠ some .brokenErr := by
  constructor
  · rfl
  · decide

/-! ### Claim C8 -/

/-- C8, amended: for a `"Success"` edit result, a boolean-true
`nochange` field yields the distinct `ErrEditNoChange` sentinel and an
absent `nochange` field yields the nil result. For a non-`"Success"`
result: a captcha object whose fields unmarshal (all strings or absent)
yields the structured captcha error; an absent captcha key yields the
unrecognized-response error; and a captcha object with a non-string,
non-null field yields the message-creation error instead of the
structured captcha error. -/
theorem c8_edit_outcomes (resp editFs capFs : List (String × Jv))
    (res : String) (c : CaptchaError)
    (hedit : objGet? resp "edit" = some (.obj editFs)) :
    EditOutcome.noChange ≠ EditOutcome.success
    ∧ (objGet? editFs "result" = some (.str "Success") →
        objGet? editFs "nochange" = some (.bool true) →
        handleEditResponse resp = .noChange)
    ∧ (objGet? editFs "result" = some (.str "Success") →
        objGet? editFs "nochange" = none →
        handleEditResponse resp = .success)
    ∧ (objGet? editFs "result" = some (.str res) → res ≠ "Success" →
        objGet? editFs "captcha" = some (.obj capFs) → captchaOf capFs = some c →
        handleEditResponse resp = .captchaErr c)
    ∧ (objGet? editFs "result" = some (.str res) → res ≠ "Success" →
        objGet? editFs "captcha" = none →
        handleEditResponse resp = .unrecognized)
    ∧ (objGet? editFs "result" = some (.str res) → res ≠ "Success" →
        objGet? editFs "captcha" = some (.obj capFs) → captchaOf capFs = none →
        handleEditResponse resp = .createMsgErr) := by
  refine ⟨by decide, ?_, ?_, ?_, ?_, ?_⟩
  · intro hres hnc
    simp [handleEditResponse, hedit, hres, hnc]
  · intro hres hnc
    simp [handleEditResponse, hedit, hres, hnc]
  · intro hres hns hcap hcof
    simp [handleEditResponse, hedit, hres, hns, hcap, hcof]
  · intro hres hns hcap
    simp [handleEditResponse, hedit, hres, hns, hcap]
  · intro hres hns hcap hcof
    simp [handleEditResponse, hedit, hres, hns, hcap, hcof]

/-- Witness for C8: a `"Success"` result with `nochange:true` yields the
no-change sentinel; the same response without `nochange` yields the nil
result; a failure with a well-typed captcha object yields the structured
captcha error. -/
theorem c8_witness :
    handleEditResponse [("edit", .obj [("result", .str "Success"),
        ("nochange", .bool true)])] = .noChange
    ∧ handleEditResponse [("edit", .obj [("result", .str "Success")])] = .success
    ∧ handleEditResponse [("edit", .obj [("result", .str "Failure"),
        ("captcha", .obj [("type", .str "math"), ("mime", .str "text/plain"),
          ("id", .str "9"), ("question", .str "1+1")])])]
      = .captchaErr ⟨"math", "text/plain", "9", ""⟩ := by
  refine ⟨?_, ?_, ?_⟩
  · exact (c8_edit_outcomes
      [("edit", .obj [("result", .str "Success"), ("nochange", .bool true)])]
      [("result", .str "Success"), ("nochange", .bool true)]
      [] "Success" ⟨"", "", "", ""⟩ rfl).2.1 rfl rfl
  · exact (c8_edit_outcomes [("edit", .obj [("result", .str "Success")])]
      [("result", .str "Success")]
      [] "Success" ⟨"", "", "", ""⟩ rfl).2.2.1 rfl rfl
  · exact (c8_edit_outcomes [("edit", .obj [("result", .str "Failure"),
      ("captcha", .obj [("type", .str "math"), ("mime", .str "text/plain"),
        ("id", .str "9"), ("question", .str "1+1")])])]
      [("result", .str "Failure"),
        ("captcha", .obj [("type", .str "math"), ("mime", .str "text/plain"),
          ("id", .str "9"), ("question", .str "1+1")])]
      [("type", .str "math"), ("mime", .str "text/plain"),
        ("id", .str "9"), ("question", .str "1+1")]
      "Failure" ⟨"math", "text/plain", "9", ""⟩ rfl).2.2.2.1 rfl (by decide) rfl rfl

/-- Counterexample to C8 as stated: a non-`"Success"` edit response with
a present `edit.captcha` object whose `type` field is a number makes
`json.Unmarshal` fail, so Edit returns the message-creation error — not
a structured captcha error. -/
theorem c8_counterexample :
    handleEditResponse [("edit", .obj [("result", .str "Failure"),
        ("captcha", .obj [("type", .num 5)])])] = .createMsgErr
    ∧ ¬ ∃ c, handleEditResponse [("edit", .obj [("result", .str "Failure"),
        ("captcha", .obj [("type", .num 5)])])] = .captchaErr c := by
  constructor
  · rfl
  · intro h
    obtain ⟨c, hc⟩ := h
    exact EditOutcome.noConfusion hc

/-! ### Claim C3 -/

/-- C3, amended: exhaustion is sticky — once the stored response is
present but carries no `continue` object, `Next` returns false and
leaves the cursor exactly as it was (no network request is consumed, the
retained error is untouched), for every later call. (After a request
that failed hard, however, the stored response is nil and the next call
retries the request — the counterexample below.) -/
theorem c3_cursor_sticky (net : Nat → Option Jv × Option String)
    (q : QueryState) (js : Jv) (hresp : q.resp = some js)
    (hnocont : jGetObject? js ["continue"] = none) :
    next net q = (false, q) := by
  simp [next, hresp, hnocont]

/-- Witness for C3 (amended): a cursor holding a response without a
`continue` object and a retained error is returned unchanged by `Next`. -/
theorem c3_witness :
    next (fun _ => (none, none)) ⟨[], some (.obj []), some "e0", 1⟩
      = (false, ⟨[], some (.obj []), some "e0", 1⟩) :=
  c3_cursor_sticky (fun _ => (none, none)) ⟨[], some (.obj []), some "e0", 1⟩
    (.obj []) rfl rfl

/-- Counterexample to C3 as stated: after a first request that fails
hard, the stored response is nil, so the second `Next` call issues a
second network request (calls go from 1 to 2), returns true, and
overwrites the previously retained error with `none`. -/
theorem c3_counterexample :
    (next c3net (newQuery [])).1 = false
    ∧ (next c3net (newQuery [])).2.err = some "hard error"
    ∧ (next c3net (newQuery [])).2.calls = 1
    ∧ (next c3net (next c3net (newQuery [])).2).1 = true
    ∧ (next c3net (next c3net (newQuery [])).2).2.calls = 2
    ∧ (next c3net (next c3net (newQuery [])).2).2.err = none := by
  refine ⟨rfl, rfl, rfl, rfl, rfl, rfl⟩

/-! ### Claim C5 -/

theorem loginFunc_run (r : LoginReply) (rest : List LoginReply)
    (hterm : continuesHandshake r = false) :
    ∀ (tokens : List String) (tok₀ : Option String),
      loginFunc tok₀
          ((tokens.map fun t => LoginReply.reply "NeedToken" (some t) none)
            ++ r :: rest)
        = (terminalOutcome r, tok₀ :: tokens.map some) := by
  intro tokens
  induction tokens with
  | nil =>
    intro tok₀
    cases r with
    | postErr e => rfl
    | badResult => rfl
    | reply res rtok reason =>
      by_cases hs : res = "Success"
      · subst hs
        simp [loginFunc, terminalOutcome]
      · by_cases hn : res = "NeedToken"
        · subst hn
          cases rtok with
          | none => simp [loginFunc, terminalOutcome]
          | some t => simp [continuesHandshake] at hterm
        · simp [loginFunc, terminalOutcome, hs, hn]
  | cons t ts ih =>
    intro tok₀
    simp only [List.map_cons, List.cons_append]
    simp [loginFunc, ih (some t)]

/-- C5, amended: in the historical variant (part_006), `Login` resubmits
with the server-supplied token on *every* `NeedToken` reply, without any
bound: `N` NeedToken replies followed by a terminal reply produce `N+1`
posts — the first with no `lgtoken`, each later one carrying the
previous reply's token — and the terminal reply's outcome (success when
it is `Success`, not an error). Current core.go never resubmits: it
makes exactly one login post and maps any non-`Success` result,
`NeedToken` included, to an `APIError` with that code. -/
theorem c5_login_handshake (tokens : List String) (r : LoginReply)
    (rest replies : List LoginReply) (tk : String)
    (hterm : continuesHandshake r = false) :
    loginFunc none
        ((tokens.map fun t => LoginReply.reply "NeedToken" (some t) none)
          ++ r :: rest)
      = (terminalOutcome r, none :: tokens.map some)
    ∧ (loginCore (.ok tk) replies).2 = 1
    ∧ (∀ (rtok : Option String) (reason : Option String)
        (rest₂ : List LoginReply),
        loginCore (.ok tk) (LoginReply.reply "NeedToken" rtok reason :: rest₂)
          = (.failure (.api "NeedToken" (reason.getD "")), 1)) := by
  refine ⟨loginFunc_run r rest hterm tokens none, ?_, ?_⟩
  · cases replies with
    | nil => rfl
    | cons hd tl =>
      cases hd with
      | postErr e => rfl
      | badResult => rfl
      | reply res rtok reason => by_cases hs : res = "Success" <;> simp [loginCore, hs]
  · intro rtok reason rest₂
    simp [loginCore]

/-- Witness for C5 (amended): one NeedToken reply then Success gives an
overall success with two posts, the second carrying the server's token;
core.go's Login maps a NeedToken reply to `APIError` after one post. -/
theorem c5_witness :
    loginFunc none [LoginReply.reply "NeedToken" (some "a") none,
        LoginReply.reply "Success" none none]
      = (.success, [none, some "a"])
    ∧ loginCore (.ok "tk") [LoginReply.reply "NeedToken" (some "a") none]
      = (.failure (.api "NeedToken" ""), 1) := by
  have h := c5_login_handshake ["a"] (.reply "Success" none none) [] [] "tk" rfl
  exact ⟨h.1, h.2.2 (some "a") none []⟩

/-- Counterexample to C5 as stated: a server replying `NeedToken` twice
and then `Success` makes the part_006 `Login` perform three posts and
return success — the second `NeedToken` does not terminate the call with
an error, and two automatic resubmissions happen. -/
theorem c5_counterexample :
    loginFunc none [LoginReply.reply "NeedToken" (some "a") none,
        LoginReply.reply "NeedToken" (some "b") none,
        LoginReply.reply "Success" none none]
      = (.success, [none, some "a", some "b"])
    ∧ (loginFunc none [LoginReply.reply "NeedToken" (some "a") none,
        LoginReply.reply "NeedToken" (some "b") none,
        LoginReply.reply "Success" none none]).2.length = 3
    ∧ LoginResult.success ≠ .failure (.api "NeedToken" "") := by
  refine ⟨rfl, rfl, by decide⟩

/-! ### Claim C10 -/

/-- C10: for a token name other than `"login"`, a cached token is
returned without a network request; an uncached fetch that succeeds
stores the token, after which any later `GetToken` with that name
returns the cached value with no request, whatever the network would
do. For the name `"login"` every call makes a network request and the
cache is never modified. -/
theorem c10_token_cache (tokens : Values) (resp : Except String Jv) (js : Jv)
    (name tok : String) (hname : name ≠ "login") :
    (Values.lookup? tokens name = some tok →
      getToken tokens resp name = (.ok tok, tokens, false))
    ∧ (Values.lookup? tokens name = none →
        jGetString js ["query", "tokens", name ++ "token"] = some tok →
        getToken tokens (.ok js) name = (.ok tok, Values.set tokens name tok, true)
        ∧ (∀ resp₂ : Except String Jv,
            getToken (Values.set tokens name tok) resp₂ name
              = (.ok tok, Values.set tokens name tok, false)))
    ∧ (∀ (tokens₂ : Values) (resp₂ : Except String Jv),
        (getToken tokens₂ resp₂ "login").2.2 = true
        ∧ (getToken tokens₂ resp₂ "login").2.1 = tokens₂) := by
  refine ⟨?_, ?_, ?_⟩
  · intro hc
    simp [getToken, LoginToken, hname, hc]
  · intro hmiss hjs
    constructor
    · simp [getToken, LoginToken, hname, hmiss, getTokenFetch, hjs]
    · intro resp₂
      simp [getToken, LoginToken, hname, lookup_set_same]
  · intro tokens₂ resp₂
    cases resp₂ with
    | error e => simp [getToken, LoginToken, getTokenFetch]
    | ok js₂ =>
      cases hj : jGetString js₂ ["query", "tokens", "logintoken"] with
      | none => simp [getToken, LoginToken, getTokenFetch, hj]
      | some t => simp [getToken, LoginToken, getTokenFetch, hj]

/-- Witness for C10: fetching `csrf` stores the token; the next call
returns it with no request even though the network is down; a `login`
fetch always goes to the network. -/
theorem c10_witness :
    getToken [] (.ok (.obj [("query", .obj [("tokens",
        .obj [("csrftoken", .str "tok123")])])])) "csrf"
      = (.ok "tok123", [("csrf", "tok123")], true)
    ∧ getToken [("csrf", "tok123")] (.error "no request issued") "csrf"
      = (.ok "tok123", [("csrf", "tok123")], false)
    ∧ (getToken [("login", "cached")] (.error "net down") "login").2.2 = true := by
  have h := c10_token_cache [] (.error "unused")
    (.obj [("query", .obj [("tokens", .obj [("csrftoken", .str "tok123")])])])
    "csrf" "tok123" (by decide)
  refine ⟨(h.2.1 rfl rfl).1, ?_, ?_⟩
  · exact (h.2.1 rfl rfl).2 (.error "no request issued")
  · exact (h.2.2 [("login", "cached")] (.error "net down")).1

end Mwclient
